import Mathlib

/-!
Formal model of the go-pass package (pass.go), a thin Go wrapper around the
pass(1) password manager. The definitions below are a shallow embedding of
the wrapper's observable behavior:

- the argument lists, environment variables and standard-input payloads each
  public operation hands to the spawned subprocess (execCommand);
- the error wrapping each public operation performs on a failed run;
- the List operation, which is implemented locally as a filepath.Walk over
  the store directory tree.

Filesystem trees are modelled by the inductive type FS; directory listings
appear in the child-list order, standing for the sorted enumeration order
used by filepath.Walk via readDirNames. Directory read failures are modelled
by a readable flag on each directory node. Environment entries KEY=VALUE
produced with fmt.Sprintf are modelled as (name, value) pairs.
-/

/-! Go string helpers used by List: strings.HasSuffix and strings.TrimSuffix,
modelled on the underlying character lists. -/

/-- Model of Go strings.HasSuffix: true when suf is a suffix of s. -/
def goHasSuffix (s suf : String) : Bool :=
  let a := s.data
  let b := suf.data
  b == a.drop (a.length - b.length)

/-- Model of Go strings.TrimSuffix: drops the suffix when present, else
returns the string unchanged. -/
def goTrimSuffix (s suf : String) : String :=
  if goHasSuffix s suf then String.mk (s.data.take (s.data.length - suf.data.length)) else s

/-- Joins relative path components with the path separator. -/
def joinComps : List String → String
  | [] => ""
  | [c] => c
  | c :: cs => c ++ "/" ++ joinComps cs

/-- Model of filepath.Rel output for a path below the store root given by its
component list; filepath.Rel(base, base) yields the single dot. -/
def joinRel (cs : List String) : String :=
  if cs = [] then "." else joinComps cs

/-- Splits a character list at the path separator, accumulating the current
component in reverse. -/
def splitSlashAux : List Char → List Char → List String
  | [], acc => [String.mk acc.reverse]
  | c :: rest, acc =>
      if c = '/' then String.mk acc.reverse :: splitSlashAux rest []
      else splitSlashAux rest (c :: acc)

/-- Path components of an entry name, i.e. the result of splitting at the
path separator. -/
def pathComps (s : String) : List String :=
  splitSlashAux s.data []

/-- Simplified model of Go filepath.Join for two already-clean operands. -/
def filepathJoin (a b : String) : String :=
  if a = "" then b else if b = "" then a else a ++ "/" ++ b

/-! The Options value of the package: a single optional store-directory
override. A Go nil pointer is modelled by Option. -/

structure Options where
  storeDir : String
deriving DecidableEq, Repr

/-- Store-directory resolution performed at the top of List: the default is
HOME joined with ".password-store", overridden by a non-empty
Options.StoreDir when an Options value is supplied. -/
def resolveStoreDir (home : String) (opts : Option Options) : String :=
  let storeDir := filepathJoin home ".password-store"
  match opts with
  | some o => if o.storeDir ≠ "" then o.storeDir else storeDir
  | none => storeDir

/-- Target-directory resolution in List: the store root itself, or the store
root joined with the subfolder when the subfolder is non-empty. -/
def resolveTargetDir (storeDir subfolder : String) : String :=
  if subfolder ≠ "" then filepathJoin storeDir subfolder else storeDir

/-! Filesystem model for List. A node is a regular file or a directory; the
readable flag records whether reading the directory (readDirNames inside
filepath.Walk) succeeds. -/

inductive FS where
  | file (name : String)
  | dir (name : String) (readable : Bool) (children : List FS)

/-- Name of a filesystem node. -/
def FS.name : FS → String
  | .file n => n
  | .dir n _ _ => n

/-- Errors surfaced by the modelled directory walk: a directory that cannot
be read, or a walk target that does not exist. Each carries the relative
path at which it occurred. -/
inductive FsErr where
  | unreadable (path : List String)
  | notFound (path : List String)
deriving DecidableEq, Repr

mutual
/-- Model of the filepath.Walk invocation inside List, applied to a node
whose path relative to the store root is rel. Mirrors the walk callback:
a non-nil incoming error (directory read failure) is returned as is; a
directory named ".git" is skipped entirely (filepath.SkipDir); other
directories are traversed; a regular file is collected exactly when its name
ends in ".gpg", reported as its store-relative path with that suffix
trimmed. -/
def walkFS : List String → FS → Except FsErr (List String)
  | rel, .file n =>
      if goHasSuffix n ".gpg" then .ok [goTrimSuffix (joinRel rel) ".gpg"] else .ok []
  | rel, .dir n r cs =>
      if r = false then .error (.unreadable rel)
      else if n = ".git" then .ok []
      else walkMany rel cs

/-- Walk of the children of a directory whose store-relative path is rel,
in enumeration order, aborting at the first error. -/
def walkMany : List String → List FS → Except FsErr (List String)
  | _, [] => .ok []
  | rel, c :: cs =>
      match walkFS (rel ++ [c.name]) c with
      | .error e => .error e
      | .ok a =>
        match walkMany rel cs with
        | .error e => .error e
        | .ok b => .ok (a ++ b)
end

mutual
/-- Resolution of the walk target: descends from the store root along the
subfolder components, failing when a component is missing or a file stands
in the way (the lstat performed by filepath.Walk on its root fails then). -/
def findTarget : FS → List String → Option FS
  | t, [] => some t
  | .file _, _ :: _ => none
  | .dir _ _ cs, s :: rest => findInList cs s rest

/-- Finds the child with the given name and continues the descent. -/
def findInList : List FS → String → List String → Option FS
  | [], _, _ => none
  | c :: cs, s, rest => if c.name = s then findTarget c rest else findInList cs s rest
end

/-- Model of the List operation over a store tree: resolve the target
directory from the subfolder components, then walk it; the walk seeds the
relative path with the subfolder components, so reported entries are
relative to the store root. A missing target surfaces the lstat error. -/
def passListFS (store : FS) (subfolder : List String) : Except FsErr (List String) :=
  match findTarget store subfolder with
  | none => .error (.notFound subfolder)
  | some target => walkFS subfolder target

/-! Specification-side description of the listing, written from the spec:
descend into directories, skip any directory named for version-control
metadata entirely, collect every regular file whose name ends in the
encrypted-file suffix, strip that suffix, and return the path relative to
the store root. -/

mutual
/-- Spec-side collection of the store-relative component lists of all
encrypted files reachable below a node at relative path rel, pruning any
".git" directory. -/
def collectComps : List String → FS → List (List String)
  | rel, .file n => if goHasSuffix n ".gpg" then [rel] else []
  | rel, .dir n _ cs => if n = ".git" then [] else collectCompsMany rel cs

/-- Spec-side collection over a list of children. -/
def collectCompsMany : List String → List FS → List (List String)
  | _, [] => []
  | rel, c :: cs => collectComps (rel ++ [c.name]) c ++ collectCompsMany rel cs
end

/-- Entry name of a collected file: its store-relative path with the ".gpg"
suffix stripped. -/
def entryOfComps (comps : List String) : String :=
  goTrimSuffix (joinRel comps) ".gpg"

/-- Spec-side listing: the entry names of every reachable encrypted file
below the target, relative to the store root (hence carrying the subfolder
as a seed). -/
def specListEntries (subfolder : List String) (target : FS) : List String :=
  (collectComps subfolder target).map entryOfComps

mutual
/-- Whether the walk of a node can hit a directory read failure: an
unreadable directory that is not strictly inside a skipped ".git" directory
(an unreadable ".git" directory itself still fails, because the walk
callback checks the incoming error before skipping). -/
def hasUnreadable : FS → Bool
  | .file _ => false
  | .dir n r cs => !r || (decide (n ≠ ".git") && hasUnreadableMany cs)

/-- Whether some child subtree can hit a directory read failure. -/
def hasUnreadableMany : List FS → Bool
  | [] => false
  | c :: cs => hasUnreadable c || hasUnreadableMany cs
end

mutual
/-- Whether a tree contains any regular file ending in ".gpg" at all,
including inside version-control metadata directories. -/
def hasGpgAll : FS → Bool
  | .file n => goHasSuffix n ".gpg"
  | .dir _ _ cs => hasGpgAllMany cs

/-- Whether some child subtree contains a ".gpg" file. -/
def hasGpgAllMany : List FS → Bool
  | [] => false
  | c :: cs => hasGpgAll c || hasGpgAllMany cs
end

/-! Subprocess invocation model. Each public operation builds an argument
list, an environment list and a standard-input payload and hands them to
execCommand, which prepends the subcommand name and spawns the external
tool. -/

/-- One environment entry, modelling the Go string NAME=VALUE. -/
structure EnvVar where
  name : String
  value : String
deriving DecidableEq, Repr

/-- The decryption-options variable set by Show: it forces non-interactive,
loopback-mode, passphrase-on-stdin decryption. -/
def gpgOptsVar : EnvVar :=
  ⟨"PASSWORD_STORE_GPG_OPTS", "--passphrase-fd=0 --pinentry-mode=loopback --batch"⟩

/-- Standard-input payload attached to the subprocess: nothing, a string
reader (strings.NewReader), or a byte reader (bytes.NewReader). -/
inductive StdinData where
  | noStdin
  | str (s : String)
  | bytes (b : List Nat)
deriving DecidableEq, Repr

/-- Environment given to the spawned subprocess. Go os/exec semantics: a nil
Env makes the child inherit the parent's environment, a non-nil Env is used
exactly as given. In this code path the constructed slice is nil precisely
when it is empty. -/
inductive ProcEnv where
  | inheritParent
  | exact (vars : List EnvVar)
deriving DecidableEq, Repr

/-- Everything the wrapper decides about the spawned process: program name,
argument list (subcommand first), constructed environment list and standard
input. -/
structure ProcSpec where
  prog : String
  argv : List String
  envList : List EnvVar
  stdin : StdinData
deriving DecidableEq, Repr

/-- Environment the subprocess actually receives, per the nil-Env semantics
of os/exec: inheritance exactly when the constructed list is empty. -/
def ProcSpec.effectiveEnv (p : ProcSpec) : ProcEnv :=
  if p.envList = [] then .inheritParent else .exact p.envList

/-- Environment list built inside execCommand: the store-directory variable
when a non-empty StoreDir option is configured, followed by the extra
variables supplied by the caller. -/
def cmdEnvList (opts : Option Options) (extraEnv : List EnvVar) : List EnvVar :=
  let env : List EnvVar := []
  let env := match opts with
    | some o => if o.storeDir ≠ "" then env ++ [⟨"PASSWORD_STORE_DIR", o.storeDir⟩] else env
    | none => env
  env ++ extraEnv

/-- Model of execCommand's process construction: program "pass", the
subcommand name prepended to the arguments, the environment list, and the
given standard input. -/
def execCommandProc (subcommand : String) (args : List String) (stdin : StdinData)
    (extraEnv : List EnvVar) (opts : Option Options) : ProcSpec :=
  let allArgs := subcommand :: args
  { prog := "pass", argv := allArgs, envList := cmdEnvList opts extraEnv, stdin := stdin }

/-- Argument list built by Init: the optional subfolder, then the gpg id. -/
def initArgs (gpgID subfolder : String) : List String :=
  let args : List String := []
  let args := if subfolder ≠ "" then args ++ [subfolder] else args
  let args := args ++ [gpgID]
  args

/-- Argument list built by Insert: the optional force flag, the always-on
multiline flag, then the entry name. -/
def insertArgs (name : String) (force : Bool) : List String :=
  let args : List String := []
  let args := if force then args ++ ["--force"] else args
  let args := args ++ ["--multiline"]
  let args := args ++ [name]
  args

/-- Argument list built by Remove: optional recursive flag, optional force
flag, then the entry name. -/
def removeArgs (name : String) (recursive force : Bool) : List String :=
  let args : List String := []
  let args := if recursive then args ++ ["--recursive"] else args
  let args := if force then args ++ ["--force"] else args
  let args := args ++ [name]
  args

/-- Argument list built by Move: optional force flag, then old and new
paths. -/
def moveArgs (oldPath newPath : String) (force : Bool) : List String :=
  let args : List String := []
  let args := if force then args ++ ["--force"] else args
  let args := args ++ [oldPath]
  let args := args ++ [newPath]
  args

/-- Argument list built by Copy: optional force flag, then old and new
paths. -/
def copyArgs (oldPath newPath : String) (force : Bool) : List String :=
  let args : List String := []
  let args := if force then args ++ ["--force"] else args
  let args := args ++ [oldPath]
  let args := args ++ [newPath]
  args

/-- Process constructed by Init: no stdin, no extra environment. -/
def initProc (gpgID subfolder : String) (opts : Option Options) : ProcSpec :=
  execCommandProc "init" (initArgs gpgID subfolder) .noStdin [] opts

/-- Process constructed by Show: the passphrase on stdin and the
decryption-options variable in the extra environment. -/
def showProc (name gpgPassphrase : String) (opts : Option Options) : ProcSpec :=
  execCommandProc "show" [name] (.str gpgPassphrase) [gpgOptsVar] opts

/-- Process constructed by Insert: the raw content bytes on stdin, no extra
environment. -/
def insertProc (name : String) (content : List Nat) (force : Bool)
    (opts : Option Options) : ProcSpec :=
  execCommandProc "insert" (insertArgs name force) (.bytes content) [] opts

/-- Process constructed by Remove: no stdin, no extra environment. -/
def removeProc (name : String) (recursive force : Bool) (opts : Option Options) : ProcSpec :=
  execCommandProc "rm" (removeArgs name recursive force) .noStdin [] opts

/-- Process constructed by Move: no stdin, no extra environment. -/
def moveProc (oldPath newPath : String) (force : Bool) (opts : Option Options) : ProcSpec :=
  execCommandProc "mv" (moveArgs oldPath newPath force) .noStdin [] opts

/-- Process constructed by Copy: no stdin, no extra environment. -/
def copyProc (oldPath newPath : String) (force : Bool) (opts : Option Options) : ProcSpec :=
  execCommandProc "cp" (copyArgs oldPath newPath force) .noStdin [] opts

/-- Process constructed by Git: the given arguments forwarded verbatim after
the subcommand name, no stdin, no extra environment. -/
def gitProc (gitArgs : List String) (opts : Option Options) : ProcSpec :=
  execCommandProc "git" gitArgs .noStdin [] opts

/-- Whether a non-empty StoreDir option is configured. -/
def storeDirConfigured : Option Options → Bool
  | some o => decide (o.storeDir ≠ "")
  | none => false

/-- The configured store directory, or the empty string. -/
def optStoreDir : Option Options → String
  | some o => o.storeDir
  | none => ""

/-! Outcome model for the spawned process. execCommand captures the child's
standard output into a buffer (standard error is left at its default and is
not captured); on a non-zero exit cmd.Run returns an ExitError whose message
is the exit diagnostics, and execCommand returns that error, dropping the
buffer. Each public operation wraps the error of execCommand in a message
prefixed with the operation name. -/

/-- Result of running the subprocess: a clean exit with the bytes it wrote
to standard output, or a non-zero exit together with whatever it wrote to
standard output before dying (captured in the buffer, then dropped). -/
inductive RunOutcome where
  | ok (stdout : String)
  | exitNonzero (code : Nat) (stdout : String)
deriving DecidableEq, Repr

/-- Message of the Go ExitError produced by cmd.Run on a non-zero exit. -/
def exitStatusMsg (code : Nat) : String :=
  "exit status " ++ toString code

/-- Model of execCommand's run phase: on success the captured standard
output is returned; on a non-zero exit the ExitError is returned unchanged
and the captured output is discarded. -/
def execCommandRun : RunOutcome → Except String String
  | .ok out => .ok out
  | .exitNonzero code _ => .error (exitStatusMsg code)

/-- Error wrapping performed by Show: a failed run is surfaced as an error
whose message is the operation prefix followed by the underlying message. -/
def showRun (outcome : RunOutcome) : Except String String :=
  match execCommandRun outcome with
  | .error e => .error ("exec show: " ++ e)
  | .ok content => .ok content

/-- Error wrapping performed by Init. -/
def initRun (outcome : RunOutcome) : Except String Unit :=
  match execCommandRun outcome with
  | .error e => .error ("exec init: " ++ e)
  | .ok _ => .ok ()

/-- Error wrapping performed by Insert. -/
def insertRun (outcome : RunOutcome) : Except String Unit :=
  match execCommandRun outcome with
  | .error e => .error ("exec insert: " ++ e)
  | .ok _ => .ok ()

/-- Error wrapping performed by Remove. -/
def removeRun (outcome : RunOutcome) : Except String Unit :=
  match execCommandRun outcome with
  | .error e => .error ("exec rm: " ++ e)
  | .ok _ => .ok ()

/-- Error wrapping performed by Move. -/
def moveRun (outcome : RunOutcome) : Except String Unit :=
  match execCommandRun outcome with
  | .error e => .error ("exec mv: " ++ e)
  | .ok _ => .ok ()

/-- Error wrapping performed by Copy. -/
def copyRun (outcome : RunOutcome) : Except String Unit :=
  match execCommandRun outcome with
  | .error e => .error ("exec cp: " ++ e)
  | .ok _ => .ok ()

/-- Error wrapping performed by Git. -/
def gitRun (outcome : RunOutcome) : Except String Unit :=
  match execCommandRun outcome with
  | .error e => .error ("exec git subcommand: " ++ e)
  | .ok _ => .ok ()

/-- Decidable equality for Except values, used to evaluate concrete walk
results. -/
instance {ε α : Type} [DecidableEq ε] [DecidableEq α] : DecidableEq (Except ε α) := fun a b =>
  match a, b with
  | .ok x, .ok y => if h : x = y then .isTrue (by rw [h]) else .isFalse (by simp [h])
  | .error x, .error y => if h : x = y then .isTrue (by rw [h]) else .isFalse (by simp [h])
  | .ok _, .error _ => .isFalse (by simp)
  | .error _, .ok _ => .isFalse (by simp)

/-! Helper lemmas relating the walk to the spec-side collection. -/

mutual
/-- When no reachable directory read failure exists, the walk succeeds and
returns exactly the spec-side entries. -/
theorem walk_eq_collect (rel : List String) (t : FS) (h : hasUnreadable t = false) :
    walkFS rel t = .ok ((collectComps rel t).map entryOfComps) := by
  cases t with
  | file n =>
    by_cases hg : goHasSuffix n ".gpg" = true <;>
      simp [walkFS, collectComps, hg, entryOfComps]
  | dir n r cs =>
    simp only [hasUnreadable, Bool.or_eq_false_iff, Bool.not_eq_false',
      Bool.and_eq_false_iff] at h
    obtain ⟨hr, h2⟩ := h
    by_cases hn : n = ".git"
    · simp [walkFS, collectComps, hr, hn]
    · have hm : hasUnreadableMany cs = false := by
        rcases h2 with h2 | h2
        · simp [hn] at h2
        · exact h2
      simp [walkFS, collectComps, hr, hn, walkMany_eq rel cs hm]

/-- Child-list version of walk_eq_collect. -/
theorem walkMany_eq (rel : List String) (cs : List FS) (h : hasUnreadableMany cs = false) :
    walkMany rel cs = .ok ((collectCompsMany rel cs).map entryOfComps) := by
  cases cs with
  | nil => simp [walkMany, collectCompsMany]
  | cons c cs =>
    simp only [hasUnreadableMany, Bool.or_eq_false_iff] at h
    simp [walkMany, collectCompsMany, walk_eq_collect (rel ++ [c.name]) c h.1,
      walkMany_eq rel cs h.2]
end

mutual
/-- When a reachable directory read failure exists, the walk fails. -/
theorem walk_err_of_unreadable (rel : List String) (t : FS) (h : hasUnreadable t = true) :
    ∃ e, walkFS rel t = .error e := by
  cases t with
  | file n => simp [hasUnreadable] at h
  | dir n r cs =>
    cases hr : r with
    | false => exact ⟨.unreadable rel, by simp [walkFS]⟩
    | true =>
      subst hr
      simp only [hasUnreadable, Bool.not_true, Bool.false_or, Bool.and_eq_true,
        decide_eq_true_eq] at h
      obtain ⟨hn, hm⟩ := h
      obtain ⟨e, he⟩ := walkMany_err_of_unreadable rel cs hm
      exact ⟨e, by simp [walkFS, hn, he]⟩

/-- Child-list version of walk_err_of_unreadable. -/
theorem walkMany_err_of_unreadable (rel : List String) (cs : List FS)
    (h : hasUnreadableMany cs = true) : ∃ e, walkMany rel cs = .error e := by
  cases cs with
  | nil => simp [hasUnreadableMany] at h
  | cons c cs =>
    cases hc : hasUnreadable c with
    | true =>
      obtain ⟨e, he⟩ := walk_err_of_unreadable (rel ++ [c.name]) c hc
      exact ⟨e, by simp [walkMany, he]⟩
    | false =>
      simp only [hasUnreadableMany, hc, Bool.false_or] at h
      obtain ⟨e, he⟩ := walkMany_err_of_unreadable rel cs h
      exact ⟨e, by simp [walkMany, walk_eq_collect (rel ++ [c.name]) c hc, he]⟩
end

mutual
/-- A tree without any ".gpg" file collects no entries. -/
theorem collect_nil_of_noGpg (rel : List String) (t : FS) (h : hasGpgAll t = false) :
    collectComps rel t = [] := by
  cases t with
  | file n =>
    simp only [hasGpgAll] at h
    simp [collectComps, h]
  | dir n r cs =>
    simp only [hasGpgAll] at h
    by_cases hn : n = ".git" <;>
      simp [collectComps, hn, collectMany_nil_of_noGpg rel cs h]

/-- Child-list version of collect_nil_of_noGpg. -/
theorem collectMany_nil_of_noGpg (rel : List String) (cs : List FS)
    (h : hasGpgAllMany cs = false) : collectCompsMany rel cs = [] := by
  cases cs with
  | nil => simp [collectCompsMany]
  | cons c cs =>
    simp only [hasGpgAllMany, Bool.or_eq_false_iff] at h
    simp [collectCompsMany, collect_nil_of_noGpg (rel ++ [c.name]) c h.1,
      collectMany_nil_of_noGpg rel cs h.2]
end

mutual
/-- Shape of every collected component list: it extends the seed, none of
its added directory components (all added components but the last) is
".git", and when something was added at all the node itself is not named
".git". -/
theorem collectComps_shape (rel : List String) (t : FS) :
    ∀ comps ∈ collectComps rel t, ∃ ext, comps = rel ++ ext ∧
      (∀ c ∈ ext.dropLast, c ≠ ".git") ∧ (ext ≠ [] → FS.name t ≠ ".git") := by
  cases t with
  | file n =>
    intro comps hc
    by_cases hg : goHasSuffix n ".gpg" = true <;> simp [collectComps, hg] at hc
    subst hc
    exact ⟨[], by simp⟩
  | dir n r cs =>
    intro comps hc
    by_cases hn : n = ".git"
    · simp [collectComps, hn] at hc
    · simp only [collectComps, hn, if_false] at hc
      obtain ⟨ext, heq, hok, -⟩ := collectCompsMany_shape rel cs comps hc
      exact ⟨ext, heq, hok, fun _ => by simpa [FS.name] using hn⟩

/-- Child-list version of collectComps_shape: the extension is non-empty. -/
theorem collectCompsMany_shape (rel : List String) (cs : List FS) :
    ∀ comps ∈ collectCompsMany rel cs, ∃ ext, comps = rel ++ ext ∧
      (∀ c ∈ ext.dropLast, c ≠ ".git") ∧ ext ≠ [] := by
  cases cs with
  | nil => simp [collectCompsMany]
  | cons c cs =>
    intro comps hc
    simp only [collectCompsMany, List.mem_append] at hc
    rcases hc with hc | hc
    · obtain ⟨ext, heq, hok, hname⟩ := collectComps_shape (rel ++ [c.name]) c comps hc
      refine ⟨c.name :: ext, by simp [heq], ?_, by simp⟩
      cases ext with
      | nil => simp
      | cons x xs =>
        intro y hy
        simp only [List.dropLast_cons₂, List.mem_cons] at hy
        rcases hy with hy | hy
        · subst hy
          exact hname (by simp)
        · exact hok y (by simpa using hy)
    · obtain ⟨ext, heq, hok, hne⟩ := collectCompsMany_shape rel cs comps hc
      exact ⟨ext, heq, hok, hne⟩
end

/-! Claim theorems. -/

/-- Claim C1, counterexample: when the show subprocess exits non-zero with
diagnostic text on its captured output, the error Show returns carries only
the exit diagnostics; the captured output is not embedded in it. -/
theorem c1_counterexample :
    showRun (.exitNonzero 2 "gpg: bad passphrase") = .error "exec show: exit status 2" ∧
    ¬ List.IsInfix "gpg: bad passphrase".data "exec show: exit status 2".data := by
  constructor
  · decide
  · decide

/-- Claim C1 (amended): for every call to Show that fails because the
external process exits non-zero, the returned error embeds the external
tool's exit diagnostics prefixed with the operation name; the captured
output of the subprocess is discarded and does not influence the error. -/
theorem c1_amended_show_error_exit_only (code : Nat) (captured : String) :
    showRun (.exitNonzero code captured) = .error ("exec show: " ++ exitStatusMsg code) := rfl

/-- Claim C2: for every store tree and subfolder whose target resolves and
walks without a directory read failure, List returns exactly the reachable
regular files ending in ".gpg", each reported relative to the store root
(carrying the subfolder as seed) with the suffix stripped. -/
theorem c2_list_exact (store : FS) (sub : List String) (target : FS)
    (hfind : findTarget store sub = some target)
    (hread : hasUnreadable target = false) :
    passListFS store sub = .ok (specListEntries sub target) := by
  simp [passListFS, hfind, specListEntries, walk_eq_collect sub target hread]

/-- Store of the C2 witness: entries a/x, a/y and b/z. -/
def c2Store : FS :=
  .dir "store" true
    [.dir "a" true [.file "x.gpg", .file "y.gpg"], .dir "b" true [.file "z.gpg"]]

/-- Witness for C2: on a store holding a/x, a/y and b/z, List with empty
subfolder returns exactly those three entries. -/
theorem c2_list_exact_witness :
    passListFS c2Store [] = .ok ["a/x", "a/y", "b/z"] :=
  (c2_list_exact c2Store [] c2Store rfl (by decide)).trans (by decide)

/-- Store of the C3 counterexample: a single regular file named ".git.gpg". -/
def c3CxStore : FS := .dir "store" true [.file ".git.gpg"]

/-- Claim C3, counterexample: a regular file whose entire name is ".git.gpg"
is collected and strips to the entry ".git", which does have ".git" as a
path component, so the claimed consequence fails. -/
theorem c3_counterexample :
    passListFS c3CxStore [] = .ok [".git"] ∧ ".git" ∈ pathComps ".git" := by
  constructor
  · decide
  · decide

/-- Store of the C3 witness. -/
def c3WStore : FS := .dir "s" true [.dir "a" true [.file "x.gpg"]]

/-- Claim C3 (amended): the walk never traverses into a directory named
".git" at any depth (it is skipped whole, or its read error surfaces before
any descent), and consequently no entry in a successful List result has
".git" as a non-final path component; a final component ".git" can still
arise from a regular file literally named ".git.gpg". -/
theorem c3_amended_git_pruned (rel : List String) (r : Bool) (cs : List FS)
    (t : FS) (res : List String) (hw : walkFS [] t = .ok res) :
    walkFS rel (FS.dir ".git" r cs) = (if r then .ok [] else .error (.unreadable rel)) ∧
    res = (collectComps [] t).map entryOfComps ∧
    (∀ comps ∈ collectComps [] t, ∀ c ∈ comps.dropLast, c ≠ ".git") := by
  have hu : hasUnreadable t = false := by
    cases h2 : hasUnreadable t
    · rfl
    · obtain ⟨e, he⟩ := walk_err_of_unreadable [] t h2
      rw [he] at hw
      exact Except.noConfusion hw
  refine ⟨?_, ?_, ?_⟩
  · cases r <;> simp [walkFS]
  · have h3 := (walk_eq_collect [] t hu).symm.trans hw
    simpa using h3.symm
  · intro comps hc c hcd
    obtain ⟨ext, heq, hok, -⟩ := collectComps_shape [] t comps hc
    simp only [List.nil_append] at heq
    subst heq
    exact hok c hcd

/-- Witness for the amended C3 at a concrete store and a concrete ".git"
directory. -/
theorem c3_amended_witness :
    walkFS [] (FS.dir ".git" true [FS.file "x.gpg"]) =
      (if true then Except.ok [] else .error (.unreadable [])) ∧
    ["a/x"] = (collectComps [] c3WStore).map entryOfComps ∧
    (∀ comps ∈ collectComps [] c3WStore, ∀ c ∈ comps.dropLast, c ≠ ".git") :=
  c3_amended_git_pruned [] true [FS.file "x.gpg"] c3WStore ["a/x"] (by decide)

/-- Claim C4: List returns an empty collection and no error when the target
resolves, every traversed directory is readable and the tree holds no
encrypted file; and it returns an I/O error exactly when the target cannot
be resolved or some traversed directory cannot be read. -/
theorem c4_empty_ok_and_error_iff (store : FS) (sub : List String) :
    ((∃ target, findTarget store sub = some target ∧ hasUnreadable target = false ∧
        hasGpgAll target = false) → passListFS store sub = .ok []) ∧
    ((∃ e, passListFS store sub = .error e) ↔
      (findTarget store sub = none ∨
       ∃ target, findTarget store sub = some target ∧ hasUnreadable target = true)) := by
  cases hf : findTarget store sub with
  | none =>
    constructor
    · rintro ⟨t, ht, -, -⟩
      exact Option.noConfusion ht
    · constructor
      · intro _
        exact Or.inl rfl
      · intro _
        exact ⟨.notFound sub, by simp [passListFS, hf]⟩
  | some target =>
    have hpl : passListFS store sub = walkFS sub target := by simp [passListFS, hf]
    constructor
    · rintro ⟨t, ht, hu, hg⟩
      injection ht with ht
      subst ht
      rw [hpl, walk_eq_collect sub target hu, collect_nil_of_noGpg sub target hg]
      simp
    · rw [hpl]
      constructor
      · rintro ⟨e, he⟩
        cases hu : hasUnreadable target with
        | false =>
          rw [walk_eq_collect sub target hu] at he
          exact Except.noConfusion he
        | true => exact Or.inr ⟨target, rfl, hu⟩
      · rintro (h | ⟨t, ht, hu⟩)
        · exact Option.noConfusion h
        · injection ht with ht
          subst ht
          exact walk_err_of_unreadable sub target hu

/-- Store of the C4 witness: one empty subdirectory, no encrypted files. -/
def c4Store : FS := .dir "store" true [.dir "a" true []]

/-- Witness for C4: on a readable store with no encrypted files, List
returns the empty collection without error. -/
theorem c4_witness : passListFS c4Store [] = .ok [] :=
  (c4_empty_ok_and_error_iff c4Store []).1 ⟨c4Store, rfl, by decide, by decide⟩

/-- Claim C5, counterexample: the error Show returns is not the underlying
process error value, but a new error whose message carries the operation
prefix. -/
theorem c5_counterexample :
    execCommandRun (.exitNonzero 1 "") = .error (exitStatusMsg 1) ∧
    showRun (.exitNonzero 1 "") = .error "exec show: exit status 1" ∧
    "exec show: exit status 1" ≠ "exit status 1" := by
  refine ⟨by decide, by decide, by decide⟩

/-- Claim C5 (amended): every failure is surfaced to the caller with no
recovery and no retry: execCommand and List return the underlying error
value unchanged, while each subprocess-spawning public operation wraps it
with a fixed operation-name message prefix. -/
theorem c5_amended_error_wrapping (code : Nat) (captured : String) (store : FS)
    (sub : List String) (target : FS) (e : FsErr) :
    (findTarget store sub = some target → walkFS sub target = .error e →
        passListFS store sub = .error e) ∧
    execCommandRun (.exitNonzero code captured) = .error (exitStatusMsg code) ∧
    showRun (.exitNonzero code captured) = .error ("exec show: " ++ exitStatusMsg code) ∧
    initRun (.exitNonzero code captured) = .error ("exec init: " ++ exitStatusMsg code) ∧
    insertRun (.exitNonzero code captured) = .error ("exec insert: " ++ exitStatusMsg code) ∧
    removeRun (.exitNonzero code captured) = .error ("exec rm: " ++ exitStatusMsg code) ∧
    moveRun (.exitNonzero code captured) = .error ("exec mv: " ++ exitStatusMsg code) ∧
    copyRun (.exitNonzero code captured) = .error ("exec cp: " ++ exitStatusMsg code) ∧
    gitRun (.exitNonzero code captured) =
      .error ("exec git subcommand: " ++ exitStatusMsg code) := by
  refine ⟨?_, rfl, rfl, rfl, rfl, rfl, rfl, rfl, rfl⟩
  intro hf hw
  simp [passListFS, hf, hw]

/-- Store of the C5 witness: an unreadable subdirectory. -/
def c5Store : FS := .dir "s" true [.dir "u" false []]

/-- Witness for the amended C5: a walk error is propagated unchanged out of
List. -/
theorem c5_amended_witness :
    passListFS c5Store [] = .error (FsErr.unreadable ["u"]) :=
  (c5_amended_error_wrapping 1 "" c5Store [] c5Store (.unreadable ["u"])).1 rfl (by decide)

/-- Claim C6: every operation's argument list places the subcommand name
first, then the optional force, recursive and multiline flags before the
positional names; Insert always includes the multiline flag; a boolean flag
occupies its slot exactly when the corresponding parameter is true. -/
theorem c6_argument_order (name gpgID subfolder oldPath newPath gpgPassphrase : String)
    (content : List Nat) (recursive force : Bool) (gitArgs : List String)
    (opts : Option Options) :
    (insertProc name content force opts).argv =
      "insert" :: ((if force then ["--force"] else []) ++ ["--multiline"] ++ [name]) ∧
    "--multiline" ∈ (insertProc name content force opts).argv ∧
    (removeProc name recursive force opts).argv =
      "rm" :: ((if recursive then ["--recursive"] else []) ++
        (if force then ["--force"] else []) ++ [name]) ∧
    (moveProc oldPath newPath force opts).argv =
      "mv" :: ((if force then ["--force"] else []) ++ [oldPath, newPath]) ∧
    (copyProc oldPath newPath force opts).argv =
      "cp" :: ((if force then ["--force"] else []) ++ [oldPath, newPath]) ∧
    (showProc name gpgPassphrase opts).argv = ["show", name] ∧
    (initProc gpgID subfolder opts).argv =
      "init" :: ((if subfolder ≠ "" then [subfolder] else []) ++ [gpgID]) ∧
    (gitProc gitArgs opts).argv = "git" :: gitArgs := by
  cases force <;> cases recursive <;>
    by_cases hs : subfolder = "" <;>
      simp [insertProc, removeProc, moveProc, copyProc, showProc, initProc, gitProc,
        execCommandProc, insertArgs, removeArgs, moveArgs, copyArgs, initArgs, hs]

/-- Claim C7: the store-directory variable is added to the constructed
subprocess environment exactly when a non-empty StoreDir option is
configured; the decryption-options variable is added for Show and for no
other operation; Show attaches the passphrase on standard input, Insert the
raw content bytes, and every other operation attaches no standard input. -/
theorem c7_subprocess_io_contract (opts : Option Options)
    (name gpgPassphrase gpgID subfolder oldPath newPath : String)
    (content : List Nat) (recursive force : Bool) (gitArgs : List String) :
    (∀ extraEnv, storeDirConfigured opts = true →
      cmdEnvList opts extraEnv = ⟨"PASSWORD_STORE_DIR", optStoreDir opts⟩ :: extraEnv) ∧
    (∀ extraEnv, storeDirConfigured opts = false → cmdEnvList opts extraEnv = extraEnv) ∧
    gpgOptsVar ∈ (showProc name gpgPassphrase opts).envList ∧
    (∀ v, EnvVar.mk "PASSWORD_STORE_GPG_OPTS" v ∉ (initProc gpgID subfolder opts).envList) ∧
    (∀ v, EnvVar.mk "PASSWORD_STORE_GPG_OPTS" v ∉
      (insertProc name content force opts).envList) ∧
    (∀ v, EnvVar.mk "PASSWORD_STORE_GPG_OPTS" v ∉
      (removeProc name recursive force opts).envList) ∧
    (∀ v, EnvVar.mk "PASSWORD_STORE_GPG_OPTS" v ∉
      (moveProc oldPath newPath force opts).envList) ∧
    (∀ v, EnvVar.mk "PASSWORD_STORE_GPG_OPTS" v ∉
      (copyProc oldPath newPath force opts).envList) ∧
    (∀ v, EnvVar.mk "PASSWORD_STORE_GPG_OPTS" v ∉ (gitProc gitArgs opts).envList) ∧
    (showProc name gpgPassphrase opts).stdin = .str gpgPassphrase ∧
    (insertProc name content force opts).stdin = .bytes content ∧
    (initProc gpgID subfolder opts).stdin = .noStdin ∧
    (removeProc name recursive force opts).stdin = .noStdin ∧
    (moveProc oldPath newPath force opts).stdin = .noStdin ∧
    (copyProc oldPath newPath force opts).stdin = .noStdin ∧
    (gitProc gitArgs opts).stdin = .noStdin := by
  rcases opts with - | o
  · refine ⟨?_, ?_, ?_, ?_, ?_, ?_, ?_, ?_, ?_, rfl, rfl, rfl, rfl, rfl, rfl, rfl⟩
    · intro extraEnv h
      simp [storeDirConfigured] at h
    · intro extraEnv _
      simp [cmdEnvList]
    · simp [showProc, execCommandProc, cmdEnvList, gpgOptsVar]
    all_goals
      intro v h
      simp [initProc, insertProc, removeProc, moveProc, copyProc, gitProc,
        execCommandProc, cmdEnvList] at h
  · by_cases hd : o.storeDir = ""
    · refine ⟨?_, ?_, ?_, ?_, ?_, ?_, ?_, ?_, ?_, rfl, rfl, rfl, rfl, rfl, rfl, rfl⟩
      · intro extraEnv h
        simp [storeDirConfigured, hd] at h
      · intro extraEnv _
        simp [cmdEnvList, hd]
      · simp [showProc, execCommandProc, cmdEnvList, hd, gpgOptsVar]
      all_goals
        intro v h
        simp [initProc, insertProc, removeProc, moveProc, copyProc, gitProc,
          execCommandProc, cmdEnvList, hd] at h
    · refine ⟨?_, ?_, ?_, ?_, ?_, ?_, ?_, ?_, ?_, rfl, rfl, rfl, rfl, rfl, rfl, rfl⟩
      · intro extraEnv _
        simp [cmdEnvList, optStoreDir, hd]
      · intro extraEnv h
        simp [storeDirConfigured, hd] at h
      · simp [showProc, execCommandProc, cmdEnvList, hd, gpgOptsVar]
      all_goals
        intro v h
        simp [initProc, insertProc, removeProc, moveProc, copyProc, gitProc,
          execCommandProc, cmdEnvList, hd] at h

/-- Witness for C7: with a configured store directory, the constructed
environment starts with the store-directory variable. -/
theorem c7_witness :
    cmdEnvList (some ⟨"/s"⟩) [] = [EnvVar.mk "PASSWORD_STORE_DIR" "/s"] :=
  (c7_subprocess_io_contract (some ⟨"/s"⟩) "n" "p" "id" "" "a" "b" [] false false []).1 []
    (by decide)

/-- Claim C8: when the options are absent or carry an empty StoreDir, the
store root used by List is the home directory joined with the fixed
subdirectory name ".password-store", and with an empty subfolder that store
root is also the walk target. -/
theorem c8_default_store_dir (home : String) (opts : Option Options)
    (h : opts = none ∨ ∃ o, opts = some o ∧ o.storeDir = "") :
    resolveStoreDir home opts = filepathJoin home ".password-store" ∧
    resolveTargetDir (resolveStoreDir home opts) "" = filepathJoin home ".password-store" := by
  have h1 : resolveStoreDir home opts = filepathJoin home ".password-store" := by
    rcases h with h | ⟨o, ho, hs⟩
    · simp [resolveStoreDir, h]
    · simp [resolveStoreDir, ho, hs]
  exact ⟨h1, by simp [resolveTargetDir, h1]⟩

/-- Witness for C8 at a concrete home directory and absent options. -/
theorem c8_witness :
    resolveStoreDir "/home/u" none = "/home/u/.password-store" :=
  (c8_default_store_dir "/home/u" none (Or.inl rfl)).1.trans (by decide)

/-- Claim C9: with a configured non-empty store directory every operation
passes the subprocess exactly the explicitly constructed environment (the
store-directory variable, plus the decryption-options variable for Show) and
inherits nothing; without it, every operation other than Show constructs an
empty environment and the subprocess inherits the parent environment. -/
theorem c9_env_exactness (d name gpgPassphrase gpgID subfolder oldPath newPath : String)
    (content : List Nat) (recursive force : Bool) (gitArgs : List String)
    (hd : d ≠ "") :
    (showProc name gpgPassphrase (some ⟨d⟩)).effectiveEnv =
      .exact [⟨"PASSWORD_STORE_DIR", d⟩, gpgOptsVar] ∧
    (initProc gpgID subfolder (some ⟨d⟩)).effectiveEnv =
      .exact [⟨"PASSWORD_STORE_DIR", d⟩] ∧
    (insertProc name content force (some ⟨d⟩)).effectiveEnv =
      .exact [⟨"PASSWORD_STORE_DIR", d⟩] ∧
    (removeProc name recursive force (some ⟨d⟩)).effectiveEnv =
      .exact [⟨"PASSWORD_STORE_DIR", d⟩] ∧
    (moveProc oldPath newPath force (some ⟨d⟩)).effectiveEnv =
      .exact [⟨"PASSWORD_STORE_DIR", d⟩] ∧
    (copyProc oldPath newPath force (some ⟨d⟩)).effectiveEnv =
      .exact [⟨"PASSWORD_STORE_DIR", d⟩] ∧
    (gitProc gitArgs (some ⟨d⟩)).effectiveEnv = .exact [⟨"PASSWORD_STORE_DIR", d⟩] ∧
    (initProc gpgID subfolder none).envList = [] ∧
    (initProc gpgID subfolder none).effectiveEnv = .inheritParent ∧
    (insertProc name content force none).envList = [] ∧
    (insertProc name content force none).effectiveEnv = .inheritParent ∧
    (removeProc name recursive force none).envList = [] ∧
    (removeProc name recursive force none).effectiveEnv = .inheritParent ∧
    (moveProc oldPath newPath force none).envList = [] ∧
    (moveProc oldPath newPath force none).effectiveEnv = .inheritParent ∧
    (copyProc oldPath newPath force none).envList = [] ∧
    (copyProc oldPath newPath force none).effectiveEnv = .inheritParent ∧
    (gitProc gitArgs none).envList = [] ∧
    (gitProc gitArgs none).effectiveEnv = .inheritParent := by
  simp [showProc, initProc, insertProc, removeProc, moveProc, copyProc, gitProc,
    execCommandProc, cmdEnvList, ProcSpec.effectiveEnv, hd]

/-- Witness for C9: Show with a configured store directory receives exactly
the two constructed variables. -/
theorem c9_witness :
    (showProc "n" "p" (some ⟨"/s"⟩)).effectiveEnv =
      .exact [⟨"PASSWORD_STORE_DIR", "/s"⟩, gpgOptsVar] :=
  (c9_env_exactness "/s" "n" "p" "id" "" "a" "b" [] false false [] (by decide)).1

/-- Claim C10: a regular file whose entire name is ".gpg" is collected, and
suffix stripping yields the empty entry name at the store root and an entry
name ending in the path separator inside a subdirectory. -/
theorem c10_degenerate_gpg_entry :
    passListFS (FS.dir "store" true [FS.file ".gpg", FS.dir "a" true [FS.file ".gpg"]]) [] =
      .ok ["", "a/"] := by decide
